import Mathlib

/-!
A shallow embedding of BundleGen's CLI entry points
(`bundlegen/cli/main.py`) together with spec-modelled definitions of the
core's dependency walker and library matcher (the core package
`bundlegen.core` is not part of the sources here; only its caller is).

External collaborators (platform config lookup, image download and
unpacking, metadata extraction, user prompts, the bundle processor) are
modelled by an environment record `Env` fixing the outcome of each
collaborator call; `generate` then replays the control flow of `main.py`
over that environment, recording the externally visible actions as a
trace of events.
-/

/- ===== The `cli` group (main.py lines 32-50) ===== -/

/-- The `log_levels` dict of `cli` (main.py lines 43-48), as an
association list. -/
def logLevels : List (Nat × String) :=
  [(0, "SUCCESS"), (1, "INFO"), (2, "DEBUG"), (3, "TRACE")]

/-- The level string handed to `logger.add` by the `cli` group for a given
`--verbose` count (main.py lines 40-50): the count is clamped at 3 and then
looked up in `log_levels` with `.get`, whose miss case is modelled as
`none`. -/
def cli (verbose : Nat) : Option String :=
  let v := if verbose > 3 then 3 else verbose
  (logLevels.find? (fun p => p.1 == v)).map (fun p => p.2)

/- ===== The `generate` command (main.py lines 53-170) ===== -/

/-- Which metadata dictionary ends up in `app_metadata_dict` when the
`BundleProcessor` is constructed: the dict parsed from the custom
`--appmetadata` file, or the dict extracted from the unpacked image. -/
inductive MetadataVal where
  | fromImage
  | fromFile
  deriving DecidableEq

/-- Externally visible actions of a `generate` run, in execution order. -/
inductive Event where
  | rmtreeExisting
  | unpackImage
  | deleteImgAppMetadata
  | constructProcessor (md : MetadataVal) (nodepwalking : Bool) (libmatchingmode : String)
  | checkCompatibility (result : Bool)
  | rmtreeIncompat
  | beginProcessing (result : Bool)
  | createControlFile
  | createIpk
  | createTgz
  deriving DecidableEq

/- Meaning of the `Event` constructors, by source location in main.py:
`rmtreeExisting` is the `shutil.rmtree(outputdir)` of line 88 (pre-existing
output directory); `unpackImage` is a successful
`img_unpacker.unpack_image` into `outputdir` (line 108), which creates the
output directory; `deleteImgAppMetadata` is
`img_unpacker.delete_img_app_metadata()` (lines 141 and 145);
`constructProcessor` is the `BundleProcessor(...)` construction of lines
148-149 with the arguments that vary between runs; `checkCompatibility` is
the `processor.check_compatibility()` call of line 150 with its result;
`rmtreeIncompat` is the `shutil.rmtree(outputdir)` of line 152;
`beginProcessing` is `processor.begin_processing()` (line 155) with its
result; `createControlFile`, `createIpk`, `createTgz` are the `Utils`
calls of lines 164-169. -/

/-- How a `generate` run ends: fell off the end of the function
(`completed`), hit one of the early `return` statements (`earlyReturn`),
was aborted by `click.confirm(..., abort=True)` (`aborted`), or raised an
uncaught Python exception (`pyError`, carrying the exception name). -/
inductive Outcome where
  | completed
  | earlyReturn
  | aborted
  | pyError (exc : String)
  deriving DecidableEq

/-- The observable result of a run: its event trace plus how it ended. -/
structure RunResult where
  events : List Event
  outcome : Outcome
  deriving DecidableEq

/-- Outcomes of every external collaborator call plus the CLI flags of one
`generate` invocation (the matching mode is passed separately, since it is
validated by `click.Choice` before `generate` runs). -/
structure Env where
  outputdirExists : Bool
  yes : Bool
  confirmOverwrite : Bool
  foundConfig : Bool
  downloadOk : Bool
  unpackSuccess : Bool
  metadataFromImage : Bool
  appmetadata : Option String
  appmetadataExists : Bool
  confirmUseCustom : Bool
  compatible : Bool
  processingSuccess : Bool
  ipk : Bool
  nodepwalking : Bool
  deriving DecidableEq

/- Field meanings: `outputdirExists` is `os.path.exists(outputdir)` at
entry (line 82); `yes` the `--yes` flag; `confirmOverwrite` the user's
answer to the overwrite prompt (line 84); `foundConfig` is
`selected_platform.found_config()` (line 93); `downloadOk` the truthiness
of `img_downloader.download_image(...)` (line 99); `unpackSuccess` is
`img_unpacker.unpack_image(...)` (line 108); `metadataFromImage` the
truthiness of `img_unpacker.get_app_metadata_from_img()` (line 114);
`appmetadata` the `--appmetadata` option (`none` when omitted);
`appmetadataExists` is `os.path.exists` on the custom metadata path;
`confirmUseCustom` the answer to the "Use custom metadata?" prompt
(line 134); `compatible` is `processor.check_compatibility()` (line 150);
`processingSuccess` is `processor.begin_processing()` (line 155); `ipk`
and `nodepwalking` the corresponding flags. -/

/-- Prefix a run result with events that already happened. -/
def prependEvents (evs : List Event) (r : RunResult) : RunResult :=
  ⟨evs ++ r.events, r.outcome⟩

/-- `os.path.abspath` on a string argument (main.py line 115): path
resolution itself is not modelled, but the result is always a nonempty
absolute path string — in particular `os.path.abspath("")` is the current
working directory. Applied to `None`, `os.path.abspath` raises
`TypeError`; that case is handled at the call site in `stageMetadata`. -/
def normalizePath (s : String) : String :=
  if s = "" then "/" else s

/-- Lines 148-170 of main.py: construct the `BundleProcessor`, run the
compatibility check (deleting all work done so far when it fails), run
`begin_processing`, and on success package the bundle as `.ipk` or
`.tar.gz` depending on the `--ipk` flag. -/
def stageProcess (env : Env) (mode : String) (md : MetadataVal) : RunResult :=
  if !env.compatible then
    ⟨[Event.constructProcessor md env.nodepwalking mode,
      Event.checkCompatibility false, Event.rmtreeIncompat], Outcome.earlyReturn⟩
  else if !env.processingSuccess then
    ⟨[Event.constructProcessor md env.nodepwalking mode,
      Event.checkCompatibility true, Event.beginProcessing false], Outcome.earlyReturn⟩
  else if env.ipk then
    ⟨[Event.constructProcessor md env.nodepwalking mode,
      Event.checkCompatibility true, Event.beginProcessing true,
      Event.createControlFile, Event.createIpk], Outcome.completed⟩
  else
    ⟨[Event.constructProcessor md env.nodepwalking mode,
      Event.checkCompatibility true, Event.beginProcessing true,
      Event.createTgz], Outcome.completed⟩

/-- Lines 113-149 of main.py: select the app metadata source.
`os.path.abspath(appmetadata)` on line 115 raises `TypeError` when the
`--appmetadata` option was omitted (its value is `None`); otherwise the
abspath result is a nonempty string, so the `not appmetadata` test of
line 118 can never succeed afterwards. In the branch where metadata exists
both in the image and as a custom file, choosing the custom file opens it
without an existence check (line 135), so a missing file raises
`FileNotFoundError` there. -/
def stageMetadata (env : Env) (mode : String) : RunResult :=
  match env.appmetadata with
  | none => ⟨[], Outcome.pyError "TypeError"⟩
  | some s =>
    if !env.metadataFromImage && normalizePath s = "" then
      ⟨[], Outcome.earlyReturn⟩
    else if !env.metadataFromImage then
      if !env.appmetadataExists then ⟨[], Outcome.earlyReturn⟩
      else stageProcess env mode MetadataVal.fromFile
    else if !(normalizePath s = "") then
      if env.confirmUseCustom then
        if !env.appmetadataExists then ⟨[], Outcome.pyError "FileNotFoundError"⟩
        else prependEvents [Event.deleteImgAppMetadata]
          (stageProcess env mode MetadataVal.fromFile)
      else prependEvents [Event.deleteImgAppMetadata]
        (stageProcess env mode MetadataVal.fromImage)
    else prependEvents [Event.deleteImgAppMetadata]
      (stageProcess env mode MetadataVal.fromImage)

/-- Lines 106-111 of main.py: unpack the image into the output directory
(creating it); on failure, return. -/
def stageUnpack (env : Env) (mode : String) : RunResult :=
  if !env.unpackSuccess then ⟨[], Outcome.earlyReturn⟩
  else prependEvents [Event.unpackImage] (stageMetadata env mode)

/-- Lines 97-103 of main.py: download the image; a falsy path returns. -/
def stageDownload (env : Env) (mode : String) : RunResult :=
  if !env.downloadOk then ⟨[], Outcome.earlyReturn⟩
  else stageUnpack env mode

/-- Lines 90-95 of main.py: load the platform config; on failure, return. -/
def stageConfig (env : Env) (mode : String) : RunResult :=
  if !env.foundConfig then ⟨[], Outcome.earlyReturn⟩
  else stageDownload env mode

/-- The body of the `generate` command (main.py lines 73-170), starting
with the pre-existing output directory handling of lines 82-88: when the
directory exists and neither `--yes` nor an affirmative answer to the
prompt was given, `click.confirm(..., abort=True)` aborts the run before
anything is deleted; otherwise an existing directory is removed and the
pipeline continues. -/
def generate (env : Env) (mode : String) : RunResult :=
  if env.outputdirExists then
    if !env.yes && !env.confirmOverwrite then ⟨[], Outcome.aborted⟩
    else prependEvents [Event.rmtreeExisting] (stageConfig env mode)
  else stageConfig env mode

/-- Effect of one event on the existence of the output directory. -/
def dirStep (b : Bool) : Event → Bool
  | Event.rmtreeExisting => false
  | Event.unpackImage => true
  | Event.rmtreeIncompat => false
  | _ => b

/-- Whether the output directory exists after the run: the initial
existence folded through the run's events. -/
def finalDirExists (env : Env) (mode : String) : Bool :=
  (generate env mode).events.foldl dirStep env.outputdirExists

/-- The values accepted by `click.Choice(['normal', 'image', 'host'],
case_sensitive=True)` for `--libmatchingmode` (main.py line 67). -/
def libmatchingmodeChoices : List String :=
  ["normal", "image", "host"]

/-- Click's handling of the `--libmatchingmode` option (main.py line 67):
an omitted option takes the default `'normal'`; a supplied value is
accepted exactly when it is one of the three case-sensitive choices, and
rejected with a usage error otherwise. -/
def parseLibmatchingmode : Option String → Except String String
  | none => Except.ok "normal"
  | some s => if s ∈ libmatchingmodeChoices then Except.ok s else Except.error s

/-- A full CLI invocation of `generate`: click validates
`--libmatchingmode` before the command body runs, so a rejected value
produces a usage error and no run at all. -/
def cliGenerate (rawMode : Option String) (env : Env) : Except String RunResult :=
  (parseLibmatchingmode rawMode).map (fun mode => generate env mode)

/- ===== Spec-modelled core: dependency walker (spec sections 4.2-4.3)
The package `bundlegen.core` is not among the sources; the following
definitions are modelled from the specification's words. ===== -/

/-- Modelled from the spec: a `LibraryRecord` of the `_libs.json` catalog
(spec sections 3 and 6) — `{dependsOn: [string], imageVersions: [string],
hostVersions: [string]}`, keyed by library name. -/
structure LibraryRecord where
  dependsOn : List String
  imageVersions : List String
  hostVersions : List String
  deriving DecidableEq

/-- Modelled from the spec: the catalog, a mapping from library name to
`LibraryRecord` (spec section 4.2), as an association list. -/
abbrev Catalog := List (String × LibraryRecord)

/-- Modelled from the spec: `lookup(name) -> LibraryRecord option` of the
`LibraryCatalog` component (spec section 4.2). -/
def lookupLib (catalog : Catalog) (n : String) : Option LibraryRecord :=
  (catalog.find? (fun p => p.1 == n)).map (fun p => p.2)

/-- Modelled from the spec: the result of `walk` — the dependency closure
plus the names recorded as unresolved (spec section 4.3). -/
structure WalkResult where
  closure : List String
  unresolved : List String
  deriving DecidableEq

/-- Number of catalog keys not yet visited; the termination measure of
the traversal (each newly visited catalog key decreases it). -/
def unvisitedCount (catalog : Catalog) (visited : List String) : Nat :=
  ((catalog.map (fun p => p.1)).filter (fun k => !(visited.contains k))).length

/-- Modelled from the spec: the worklist traversal of `DependencyWalker`
(spec section 4.3) — follow `dependsOn` edges from the pending names, with
a visited-set guard so that an already visited library is not re-expanded
(cycles terminate without error), and record names absent from the
catalog as unresolved while still including them in the closure. -/
def walkAux (catalog : Catalog) (pending visited unresolved : List String) : WalkResult :=
  match pending with
  | [] => ⟨visited.reverse, unresolved.reverse⟩
  | n :: rest =>
    if hv : n ∈ visited then
      walkAux catalog rest visited unresolved
    else
      match hl : lookupLib catalog n with
      | some record => walkAux catalog (record.dependsOn ++ rest) (n :: visited) unresolved
      | none => walkAux catalog rest (n :: visited) (n :: unresolved)
termination_by (unvisitedCount catalog visited, pending.length)
decreasing_by
· apply Prod.Lex.right
  simp
· apply Prod.Lex.left
  have hvc : visited.contains n = false := by
    simpa using hv
  have hmem : n ∈ catalog.map (fun p => p.1) := by
    obtain ⟨pair, hfind, hsnd⟩ := Option.map_eq_some'.mp hl
    have h1 : pair ∈ catalog := List.mem_of_find?_eq_some hfind
    have h2 : pair.1 = n := by
      have := List.find?_some hfind
      exact eq_of_beq this
    exact List.mem_map.mpr ⟨pair, h1, h2⟩
  have mono : ∀ ks : List String,
      (ks.filter (fun k => !((n :: visited).contains k))).length ≤
        (ks.filter (fun k => !(visited.contains k))).length := by
    intro ks
    induction ks with
    | nil => simp
    | cons a t ih =>
      rw [List.filter_cons, List.filter_cons]
      by_cases h1 : ((n :: visited).contains a) = true
      · by_cases h2 : (visited.contains a) = true
        · simp only [h1, h2, Bool.not_true, if_false]
          exact ih
        · simp only [h1, Bool.not_true, if_false, Bool.not_eq_true] at *
          simp only [h2, Bool.not_false, if_true, List.length_cons]
          exact Nat.le_succ_of_le ih
      · have h2 : visited.contains a = false := by
          rcases hca : visited.contains a
          · rfl
          · refine absurd ?_ h1
            simp only [List.contains_cons, hca, Bool.or_true]
        simp only [Bool.not_eq_true] at h1
        simp only [h1, h2, Bool.not_false, if_true, List.length_cons]
        exact Nat.succ_le_succ ih
  have main : ∀ ks : List String, n ∈ ks →
      (ks.filter (fun k => !((n :: visited).contains k))).length <
        (ks.filter (fun k => !(visited.contains k))).length := by
    intro ks hks
    induction ks with
    | nil => simp at hks
    | cons a t ih =>
      rw [List.filter_cons, List.filter_cons]
      by_cases han : a = n
      · subst han
        have h1 : (a :: visited).contains a = true := by
          simp [List.contains_cons]
        have h2 : visited.contains a = false := hvc
        simp only [h1, h2, Bool.not_true, Bool.not_false, if_false, if_true,
          List.length_cons]
        exact Nat.lt_succ_of_le (mono t)
      · have hnt : n ∈ t := by
          rcases List.mem_cons.mp hks with h | h
          · exact absurd h.symm han
          · exact h
        have hsame : ((n :: visited).contains a) = (visited.contains a) := by
          have hbeq : (a == n) = false := by
            simp [han]
          rw [List.contains_cons, hbeq, Bool.false_or]
        rw [hsame]
        rcases hva : visited.contains a
        · simp only [hva, Bool.not_false, if_true, List.length_cons]
          exact Nat.succ_lt_succ (ih hnt)
        · simp only [hva, Bool.not_true, if_false]
          exact ih hnt
  simpa [unvisitedCount] using main (catalog.map (fun p => p.1)) hmem
· have hnone : catalog.find? (fun p => p.1 == n) = none := by
    rcases hfo : catalog.find? (fun p => p.1 == n) with _ | pair
    · exact hfo
    · simp [lookupLib, hfo] at hl
  have hnk : ∀ k ∈ catalog.map (fun p => p.1), (k == n) = false := by
    intro k hk
    obtain ⟨pair, hpmem, hpk⟩ := List.mem_map.mp hk
    have := List.find?_eq_none.mp hnone pair hpmem
    subst hpk
    simpa using this
  have heq : unvisitedCount catalog (n :: visited) = unvisitedCount catalog visited := by
    simp only [unvisitedCount]
    apply congrArg List.length
    apply List.filter_congr
    intro k hk
    have hkn : ¬ k = n := by simpa using hnk k hk
    simp [List.contains_cons, hkn]
  rw [heq]
  apply Prod.Lex.right
  simp

/-- Modelled from the spec: `walk(roots, catalog) -> DependencyClosure`
(spec section 4.3), the traversal started from the declared roots with an
empty visited set. -/
def walk (roots : List String) (catalog : Catalog) : WalkResult :=
  walkAux catalog roots [] []

/-- The two-element cyclic catalog of spec section 8 item 5: library `A`
depends on `B` and `B` depends on `A`. -/
def catalogAB : Catalog :=
  [("A", ⟨["B"], [], []⟩), ("B", ⟨["A"], [], []⟩)]

/- ===== Spec-modelled core: library matcher (spec section 4.4) ===== -/

/-- Modelled from the spec: a parsed version tag `NAME_MAJOR.MINOR`
(spec section 4.4), e.g. `GLIBC_2.4` with family `GLIBC`. -/
structure VersionTag where
  family : String
  major : Nat
  minor : Nat
  deriving DecidableEq

/-- Split a character list at every occurrence of the separator. -/
def splitOnChar (c : Char) : List Char → List (List Char)
  | [] => [[]]
  | x :: xs =>
    let r := splitOnChar c xs
    if x == c then [] :: r
    else
      match r with
      | [] => [[x]]
      | y :: ys => (x :: y) :: ys

/-- Parse a nonempty list of decimal digits as a natural number. -/
def digitsToNat? (l : List Char) : Option Nat :=
  if l.isEmpty then none
  else
    l.foldl (fun acc c =>
      acc.bind (fun acc2 =>
        if c.isDigit then some (acc2 * 10 + (c.toNat - Char.toNat '0')) else none))
      (some 0)

/-- Modelled from the spec: parse a version-tag string of the form
`NAME_MAJOR.MINOR` (spec section 4.4); the family is everything up to the
last underscore and may itself contain underscores. Strings of any other
shape carry no version information and parse to `none`. -/
def parseTag (s : String) : Option VersionTag :=
  match (splitOnChar '_' s.toList).reverse with
  | numPart :: f1 :: fs =>
    match splitOnChar '.' numPart with
    | [majCs, minCs] =>
      match digitsToNat? majCs, digitsToNat? minCs with
      | some maj, some mi =>
        some ⟨String.mk (List.intercalate ['_'] ((f1 :: fs).reverse)), maj, mi⟩
      | _, _ => none
    | _ => none
  | _ => none

/-- Modelled from the spec: version-tag comparison (spec section 4.4) —
comparable only when the family names match exactly, then ordered
lexicographically by the `(major, minor)` pair. -/
def tagLe (a b : VersionTag) : Bool :=
  a.family == b.family &&
    (a.major < b.major || (a.major == b.major && a.minor ≤ b.minor))

/-- Modelled from the spec: the maximum among one side's candidate version
tags (spec section 4.4), keeping the original tag string; unparsable tags
contribute no version evidence. -/
def maxTagged (tags : List String) : Option (String × VersionTag) :=
  (tags.filterMap (fun s => (parseTag s).map (fun t => (s, t)))).foldl
    (fun acc p =>
      match acc with
      | none => some p
      | some q => if tagLe q.2 p.2 then some p else some q)
    none

/-- Modelled from the spec: the origin of a resolved library (spec
section 3), `IMAGE | HOST`. -/
inductive Origin where
  | IMAGE
  | HOST
  deriving DecidableEq

/-- Modelled from the spec: `ResolvedLibrary` (spec section 3) —
`{name, origin, chosenVersionTag: optional<string>}`. -/
structure ResolvedLibrary where
  name : String
  origin : Origin
  chosenVersionTag : Option String
  deriving DecidableEq

/-- Modelled from the spec: the `normal`-mode policy of `LibraryMatcher`
(spec section 4.4) for one library — take each side's maximum version tag
and choose the side whose maximum is the maximum of the two; ties and
incomparable (different-family) maxima prefer HOST; a side without tags
offers no version evidence, and with no evidence at all the rule
degenerates to host. The `image` and `host` modes depend on
rootfs/host presence information outside the catalog record and are not
modelled. -/
def resolveNormal (name : String) (record : LibraryRecord) : ResolvedLibrary :=
  match maxTagged record.imageVersions, maxTagged record.hostVersions with
  | none, none => ⟨name, Origin.HOST, none⟩
  | some i, none => ⟨name, Origin.IMAGE, some i.1⟩
  | none, some h => ⟨name, Origin.HOST, some h.1⟩
  | some i, some h =>
    if tagLe h.2 i.2 && !(tagLe i.2 h.2) then ⟨name, Origin.IMAGE, some i.1⟩
    else ⟨name, Origin.HOST, some h.1⟩

/-- Modelled from the spec: `resolve(closure, catalog, mode)` in mode
`normal` (spec section 4.4) — one `ResolvedLibrary` per closure member; a
library without a catalog record has host-only eligibility
(spec section 4.3). -/
def resolve (closure : List String) (catalog : Catalog) : List ResolvedLibrary :=
  closure.map (fun n =>
    match lookupLib catalog n with
    | some record => resolveNormal n record
    | none => ⟨n, Origin.HOST, none⟩)

/- ===== Concrete environments used as test inputs ===== -/

/-- A run whose collaborators all succeed: fresh output directory, config
found, download and unpack fine, metadata only in a custom file that
exists, compatible, processing succeeds, `.tar.gz` output. -/
def envComplete : Env :=
  { outputdirExists := false, yes := false, confirmOverwrite := false,
    foundConfig := true, downloadOk := true, unpackSuccess := true,
    metadataFromImage := false, appmetadata := some "meta.json",
    appmetadataExists := true, confirmUseCustom := false,
    compatible := true, processingSuccess := true, ipk := false,
    nodepwalking := false }

/-- Like `envComplete` but the `--ipk` flag is set. -/
def envCompleteIpk : Env :=
  { envComplete with ipk := true }

/-- Like `envComplete` but the compatibility check fails. -/
def envIncompat : Env :=
  { envComplete with compatible := false }

/-- Like `envComplete` but `begin_processing` fails. -/
def envFailedProcessing : Env :=
  { envComplete with processingSuccess := false }

/-- Image metadata present, `--appmetadata` omitted: the documented
image-only metadata source. -/
def envImageOnly : Env :=
  { envComplete with metadataFromImage := true, appmetadata := none }

/-- Metadata both in the image and in a supplied custom file; the user
keeps the image metadata at the prompt. -/
def envBothMeta : Env :=
  { envComplete with metadataFromImage := true }

/-- An existing output directory with neither `--yes` nor confirmation. -/
def envDecline : Env :=
  { envComplete with outputdirExists := true }

/- ===== Theorems ===== -/

/-- `os.path.abspath` of a string is never the empty string. -/
theorem normalizePath_ne_empty (s : String) : ¬ normalizePath s = "" := by
  unfold normalizePath
  split
  · simp
  · assumption

/-- The four possible tails of a run that reaches the processing stage,
by compatibility, processing success and the `--ipk` flag. -/
theorem stageProcess_cases (env : Env) (mode : String) (md : MetadataVal) :
    (env.compatible = false ∧
      stageProcess env mode md =
        ⟨[Event.constructProcessor md env.nodepwalking mode,
          Event.checkCompatibility false, Event.rmtreeIncompat], Outcome.earlyReturn⟩) ∨
    (env.compatible = true ∧ env.processingSuccess = false ∧
      stageProcess env mode md =
        ⟨[Event.constructProcessor md env.nodepwalking mode,
          Event.checkCompatibility true, Event.beginProcessing false], Outcome.earlyReturn⟩) ∨
    (env.compatible = true ∧ env.processingSuccess = true ∧ env.ipk = true ∧
      stageProcess env mode md =
        ⟨[Event.constructProcessor md env.nodepwalking mode,
          Event.checkCompatibility true, Event.beginProcessing true,
          Event.createControlFile, Event.createIpk], Outcome.completed⟩) ∨
    (env.compatible = true ∧ env.processingSuccess = true ∧ env.ipk = false ∧
      stageProcess env mode md =
        ⟨[Event.constructProcessor md env.nodepwalking mode,
          Event.checkCompatibility true, Event.beginProcessing true,
          Event.createTgz], Outcome.completed⟩) := by
  rcases hc : env.compatible <;> rcases hp : env.processingSuccess <;>
    rcases hi : env.ipk <;> simp [stageProcess, hc, hp, hi]

/-- The possible results of the pipeline from the config stage onward:
an early return before unpacking, a failure right after unpacking
(metadata errors), or a run that reaches the processing stage. -/
theorem stageConfig_cases (env : Env) (mode : String) :
    (stageConfig env mode = ⟨[], Outcome.earlyReturn⟩) ∨
    (stageConfig env mode = ⟨[Event.unpackImage], Outcome.earlyReturn⟩) ∨
    (stageConfig env mode = ⟨[Event.unpackImage], Outcome.pyError "TypeError"⟩) ∨
    (stageConfig env mode = ⟨[Event.unpackImage], Outcome.pyError "FileNotFoundError"⟩) ∨
    (∃ md extra, (extra = [] ∨ extra = [Event.deleteImgAppMetadata]) ∧
      stageConfig env mode =
        ⟨Event.unpackImage :: (extra ++ (stageProcess env mode md).events),
         (stageProcess env mode md).outcome⟩) := by
  rcases hf : env.foundConfig <;> rcases hd : env.downloadOk <;>
    rcases hu : env.unpackSuccess <;> rcases ha : env.appmetadata with _ | s <;>
    rcases hm : env.metadataFromImage <;> rcases hcc : env.confirmUseCustom <;>
    rcases hae : env.appmetadataExists <;>
    first
      | (refine Or.inl ?_
         simp [stageConfig, stageDownload, stageUnpack, stageMetadata,
           prependEvents, hf, hd, hu, ha, hm, hcc, hae, normalizePath_ne_empty]
         done)
      | (refine Or.inr (Or.inl ?_)
         simp [stageConfig, stageDownload, stageUnpack, stageMetadata,
           prependEvents, hf, hd, hu, ha, hm, hcc, hae, normalizePath_ne_empty]
         done)
      | (refine Or.inr (Or.inr (Or.inl ?_))
         simp [stageConfig, stageDownload, stageUnpack, stageMetadata,
           prependEvents, hf, hd, hu, ha, hm, hcc, hae, normalizePath_ne_empty]
         done)
      | (refine Or.inr (Or.inr (Or.inr (Or.inl ?_)))
         simp [stageConfig, stageDownload, stageUnpack, stageMetadata,
           prependEvents, hf, hd, hu, ha, hm, hcc, hae, normalizePath_ne_empty]
         done)
      | (refine Or.inr (Or.inr (Or.inr (Or.inr
           ⟨MetadataVal.fromFile, [], Or.inl rfl, ?_⟩)))
         simp [stageConfig, stageDownload, stageUnpack, stageMetadata,
           prependEvents, hf, hd, hu, ha, hm, hcc, hae, normalizePath_ne_empty]
         done)
      | (refine Or.inr (Or.inr (Or.inr (Or.inr
           ⟨MetadataVal.fromFile, [Event.deleteImgAppMetadata], Or.inr rfl, ?_⟩)))
         simp [stageConfig, stageDownload, stageUnpack, stageMetadata,
           prependEvents, hf, hd, hu, ha, hm, hcc, hae, normalizePath_ne_empty]
         done)
      | (refine Or.inr (Or.inr (Or.inr (Or.inr
           ⟨MetadataVal.fromImage, [Event.deleteImgAppMetadata], Or.inr rfl, ?_⟩)))
         simp [stageConfig, stageDownload, stageUnpack, stageMetadata,
           prependEvents, hf, hd, hu, ha, hm, hcc, hae, normalizePath_ne_empty]
         done)

/-- The three top-level outcomes of `generate`: aborted at the overwrite
prompt, or the pipeline with or without a preceding directory removal. -/
theorem generate_cases (env : Env) (mode : String) :
    (env.outputdirExists = true ∧ env.yes = false ∧ env.confirmOverwrite = false ∧
      generate env mode = ⟨[], Outcome.aborted⟩) ∨
    (env.outputdirExists = false ∧ generate env mode = stageConfig env mode) ∨
    (env.outputdirExists = true ∧ (env.yes = true ∨ env.confirmOverwrite = true) ∧
      generate env mode =
        ⟨Event.rmtreeExisting :: (stageConfig env mode).events,
         (stageConfig env mode).outcome⟩) := by
  rcases ho : env.outputdirExists <;> rcases hy : env.yes <;>
    rcases hco : env.confirmOverwrite <;> simp [generate, prependEvents, ho, hy, hco]

/-- Every `generate` run is an optional initial directory removal followed
by one of: an abort, an early return before or just after unpacking, or
the processing-stage tail. -/
theorem generate_shape (env : Env) (mode : String) :
    ∃ pre, (pre = [] ∨ pre = [Event.rmtreeExisting]) ∧
      ((generate env mode = ⟨[], Outcome.aborted⟩) ∨
       (generate env mode = ⟨pre, Outcome.earlyReturn⟩) ∨
       (generate env mode = ⟨pre ++ [Event.unpackImage], Outcome.earlyReturn⟩) ∨
       (generate env mode = ⟨pre ++ [Event.unpackImage], Outcome.pyError "TypeError"⟩) ∨
       (generate env mode = ⟨pre ++ [Event.unpackImage], Outcome.pyError "FileNotFoundError"⟩) ∨
       (∃ md extra, (extra = [] ∨ extra = [Event.deleteImgAppMetadata]) ∧
         generate env mode =
           ⟨pre ++ Event.unpackImage :: (extra ++ (stageProcess env mode md).events),
            (stageProcess env mode md).outcome⟩)) := by
  rcases generate_cases env mode with ⟨ho, hy, hc, hg⟩ | ⟨ho, hg⟩ | ⟨ho, hyc, hg⟩
  · exact ⟨[], Or.inl rfl, Or.inl hg⟩
  · refine ⟨[], Or.inl rfl, ?_⟩
    rcases stageConfig_cases env mode with h | h | h | h | ⟨md, extra, hex, h⟩
    · rw [hg, h]
      exact Or.inr (Or.inl rfl)
    · rw [hg, h]
      exact Or.inr (Or.inr (Or.inl (by simp)))
    · rw [hg, h]
      exact Or.inr (Or.inr (Or.inr (Or.inl (by simp))))
    · rw [hg, h]
      exact Or.inr (Or.inr (Or.inr (Or.inr (Or.inl (by simp)))))
    · rw [hg, h]
      exact Or.inr (Or.inr (Or.inr (Or.inr (Or.inr ⟨md, extra, hex, by simp⟩))))
  · refine ⟨[Event.rmtreeExisting], Or.inr rfl, ?_⟩
    rcases stageConfig_cases env mode with h | h | h | h | ⟨md, extra, hex, h⟩
    · rw [hg, h]
      exact Or.inr (Or.inl (by simp))
    · rw [hg, h]
      exact Or.inr (Or.inr (Or.inl (by simp)))
    · rw [hg, h]
      exact Or.inr (Or.inr (Or.inr (Or.inl (by simp))))
    · rw [hg, h]
      exact Or.inr (Or.inr (Or.inr (Or.inr (Or.inl (by simp)))))
    · rw [hg, h]
      exact Or.inr (Or.inr (Or.inr (Or.inr (Or.inr ⟨md, extra, hex, by simp⟩))))

/-- The startup directory removal never occurs past the config stage. -/
theorem rmtreeExisting_notin_stageConfig (env : Env) (mode : String) :
    Event.rmtreeExisting ∉ (stageConfig env mode).events := by
  rcases stageConfig_cases env mode with h | h | h | h | ⟨md, extra, hex, h⟩ <;> rw [h]
  · simp
  · simp
  · simp
  · simp
  · rcases stageProcess_cases env mode md with ⟨_, hsp⟩ | ⟨_, _, hsp⟩ |
      ⟨_, _, _, hsp⟩ | ⟨_, _, _, hsp⟩ <;>
      rw [hsp] <;> rcases hex with h3 | h3 <;> subst h3 <;> simp

/-- Claim C1: in every run in which the compatibility check returns false,
no further pipeline stage executes — `begin_processing` is never invoked —
and the output directory already produced for the run is removed before
the program returns. -/
theorem generate_compat_gate (env : Env) (mode : String)
    (h : Event.checkCompatibility false ∈ (generate env mode).events) :
    (∀ b, Event.beginProcessing b ∉ (generate env mode).events) ∧
    finalDirExists env mode = false := by
  obtain ⟨pre, hpre, hcase⟩ := generate_shape env mode
  rcases hcase with hg | hg | hg | hg | hg | ⟨md, extra, hex, hg⟩
  · rw [hg] at h
    simp at h
  · rw [hg] at h
    rcases hpre with h2 | h2 <;> subst h2 <;> simp at h
  · rw [hg] at h
    rcases hpre with h2 | h2 <;> subst h2 <;> simp at h
  · rw [hg] at h
    rcases hpre with h2 | h2 <;> subst h2 <;> simp at h
  · rw [hg] at h
    rcases hpre with h2 | h2 <;> subst h2 <;> simp at h
  · rcases stageProcess_cases env mode md with ⟨hc, hsp⟩ | ⟨hc, hp, hsp⟩ |
      ⟨hc, hp, hi, hsp⟩ | ⟨hc, hp, hi, hsp⟩
    · constructor
      · intro b
        rw [hg, hsp]
        rcases hpre with h2 | h2 <;> rcases hex with h3 | h3 <;>
          subst h2 <;> subst h3 <;> simp
      · unfold finalDirExists
        rw [hg, hsp]
        rcases hpre with h2 | h2 <;> rcases hex with h3 | h3 <;>
          subst h2 <;> subst h3 <;> simp [dirStep]
    · rw [hg, hsp] at h
      rcases hpre with h2 | h2 <;> rcases hex with h3 | h3 <;>
        subst h2 <;> subst h3 <;> simp at h
    · rw [hg, hsp] at h
      rcases hpre with h2 | h2 <;> rcases hex with h3 | h3 <;>
        subst h2 <;> subst h3 <;> simp at h
    · rw [hg, hsp] at h
      rcases hpre with h2 | h2 <;> rcases hex with h3 | h3 <;>
        subst h2 <;> subst h3 <;> simp at h

/-- Witness for C1 at a concrete incompatible environment. -/
theorem generate_compat_gate_witness :
    Event.beginProcessing true ∉ (generate envIncompat "normal").events ∧
    finalDirExists envIncompat "normal" = false :=
  ⟨(generate_compat_gate envIncompat "normal" (by decide)).1 true,
   (generate_compat_gate envIncompat "normal" (by decide)).2⟩

/-- Counterexample to C2 as stated: a run whose `begin_processing` fails
after the output directory was created leaves that directory in place. -/
theorem generate_failed_processing_keeps_dir :
    Event.unpackImage ∈ (generate envFailedProcessing "normal").events ∧
    (generate envFailedProcessing "normal").outcome ≠ Outcome.completed ∧
    finalDirExists envFailedProcessing "normal" = true := by
  decide

/-- Claim C2 (amended): among runs that fail after the output directory
has been created, exactly the compatibility-check failures remove the
created output directory; every other post-creation failure (metadata
load failure, `begin_processing` failure) returns with the directory
left in place. -/
theorem generate_cleanup_only_on_incompat (env : Env) (mode : String)
    (hu : Event.unpackImage ∈ (generate env mode).events)
    (hfail : (generate env mode).outcome ≠ Outcome.completed) :
    (finalDirExists env mode = false ↔
      Event.checkCompatibility false ∈ (generate env mode).events) := by
  obtain ⟨pre, hpre, hcase⟩ := generate_shape env mode
  rcases hcase with hg | hg | hg | hg | hg | ⟨md, extra, hex, hg⟩
  · rw [hg] at hu
    simp at hu
  · rw [hg] at hu
    rcases hpre with h2 | h2 <;> subst h2 <;> simp at hu
  · unfold finalDirExists
    rw [hg]
    rcases hpre with h2 | h2 <;> subst h2 <;> simp [dirStep]
  · unfold finalDirExists
    rw [hg]
    rcases hpre with h2 | h2 <;> subst h2 <;> simp [dirStep]
  · unfold finalDirExists
    rw [hg]
    rcases hpre with h2 | h2 <;> subst h2 <;> simp [dirStep]
  · rcases stageProcess_cases env mode md with ⟨hc, hsp⟩ | ⟨hc, hp, hsp⟩ |
      ⟨hc, hp, hi, hsp⟩ | ⟨hc, hp, hi, hsp⟩
    · unfold finalDirExists
      rw [hg, hsp]
      rcases hpre with h2 | h2 <;> rcases hex with h3 | h3 <;>
        subst h2 <;> subst h3 <;> simp [dirStep]
    · unfold finalDirExists
      rw [hg, hsp]
      rcases hpre with h2 | h2 <;> rcases hex with h3 | h3 <;>
        subst h2 <;> subst h3 <;> simp [dirStep]
    · rw [hg, hsp] at hfail
      simp at hfail
    · rw [hg, hsp] at hfail
      simp at hfail

/-- Witness for the amended C2 at a concrete incompatible environment. -/
theorem generate_cleanup_only_on_incompat_witness :
    finalDirExists envIncompat "normal" = false ↔
      Event.checkCompatibility false ∈ (generate envIncompat "normal").events :=
  generate_cleanup_only_on_incompat envIncompat "normal" (by decide) (by decide)

/-- Claim C3: evaluation of the code at the failing input — image metadata
present and `--appmetadata` omitted makes `generate` raise `TypeError` at
`os.path.abspath(None)` (main.py line 115) instead of taking the metadata
from the image; the `BundleProcessor` is never constructed. -/
theorem generate_image_only_metadata_raises :
    generate envImageOnly "normal" =
      ⟨[Event.unpackImage], Outcome.pyError "TypeError"⟩ := by
  decide

/-- Claim C8: evaluation of the code at the failing input — with image
metadata present and no custom file, the `TypeError` of main.py line 115
prevents `delete_img_app_metadata` from ever being called; while when a
custom file is also supplied and the user keeps the image metadata, it is
called exactly once, before the `BundleProcessor` is constructed. -/
theorem generate_delete_metadata_behaviour :
    (Event.deleteImgAppMetadata ∉ (generate envImageOnly "normal").events ∧
     (generate envImageOnly "normal").outcome = Outcome.pyError "TypeError") ∧
    ((generate envBothMeta "normal").events.count Event.deleteImgAppMetadata = 1 ∧
     generate envBothMeta "normal" =
       ⟨[Event.unpackImage, Event.deleteImgAppMetadata,
         Event.constructProcessor MetadataVal.fromImage false "normal",
         Event.checkCompatibility true, Event.beginProcessing true,
         Event.createTgz], Outcome.completed⟩) := by
  decide

/-- Every `BundleProcessor` construction carries exactly the matching mode
and dependency-walking flag of the invocation. -/
theorem generate_mode_passed (env : Env) (mode : String) (md : MetadataVal)
    (n : Bool) (m : String)
    (h : Event.constructProcessor md n m ∈ (generate env mode).events) :
    m = mode ∧ n = env.nodepwalking := by
  obtain ⟨pre, hpre, hcase⟩ := generate_shape env mode
  rcases hcase with hg | hg | hg | hg | hg | ⟨md2, extra, hex, hg⟩
  · rw [hg] at h
    simp at h
  · rw [hg] at h
    rcases hpre with h2 | h2 <;> subst h2 <;> simp at h
  · rw [hg] at h
    rcases hpre with h2 | h2 <;> subst h2 <;> simp at h
  · rw [hg] at h
    rcases hpre with h2 | h2 <;> subst h2 <;> simp at h
  · rw [hg] at h
    rcases hpre with h2 | h2 <;> subst h2 <;> simp at h
  · rcases stageProcess_cases env mode md2 with ⟨hc, hsp⟩ | ⟨hc, hp, hsp⟩ |
      ⟨hc, hp, hi, hsp⟩ | ⟨hc, hp, hi, hsp⟩ <;>
      rw [hg, hsp] at h <;>
      rcases hpre with h2 | h2 <;> rcases hex with h3 | h3 <;>
      subst h2 <;> subst h3 <;> simp at h <;>
      exact ⟨h.2.2, h.2.1⟩

/-- Claim C6: the matching mode handed to the `BundleProcessor` is always
one of the three case-sensitive strings `normal`, `image`, `host`; any
other `--libmatchingmode` value is rejected by click before the command
body runs; and an omitted option means mode `normal`. -/
theorem cliGenerate_mode_valid : ∀ (raw : Option String) (env : Env),
    (∀ r, cliGenerate raw env = Except.ok r →
      ∀ md n m, Event.constructProcessor md n m ∈ r.events →
        (m = "normal" ∨ m = "image" ∨ m = "host")) ∧
    (∀ s, raw = some s → s ∉ libmatchingmodeChoices →
      cliGenerate raw env = Except.error s) ∧
    (∀ r, raw = none → cliGenerate raw env = Except.ok r →
      ∀ md n m, Event.constructProcessor md n m ∈ r.events → m = "normal") := by
  intro raw env
  refine ⟨?_, ?_, ?_⟩
  · intro r hr md n m hmem
    rcases raw with _ | s
    · simp only [cliGenerate, parseLibmatchingmode, Except.map] at hr
      injection hr with h2
      subst h2
      exact Or.inl (generate_mode_passed env "normal" md n m hmem).1
    · by_cases hs : s ∈ libmatchingmodeChoices
      · simp only [cliGenerate, parseLibmatchingmode, if_pos hs, Except.map] at hr
        injection hr with h2
        subst h2
        have hm := (generate_mode_passed env s md n m hmem).1
        subst hm
        simpa [libmatchingmodeChoices] using hs
      · simp only [cliGenerate, parseLibmatchingmode, if_neg hs, Except.map] at hr
        cases hr
  · intro s hraw hs
    subst hraw
    simp [cliGenerate, parseLibmatchingmode, if_neg hs, Except.map]
  · intro r hraw hr md n m hmem
    subst hraw
    simp only [cliGenerate, parseLibmatchingmode, Except.map] at hr
    injection hr with h2
    subst h2
    exact (generate_mode_passed env "normal" md n m hmem).1

/-- Witness for C6: a miscapitalised mode is rejected before any run. -/
theorem cliGenerate_mode_valid_witness :
    cliGenerate (some "Normal") envComplete = Except.error "Normal" :=
  (cliGenerate_mode_valid (some "Normal") envComplete).2.1 "Normal" rfl (by decide)

/-- Claim C7: packaging runs if and only if `begin_processing` returned
success, and the `--ipk` flag selects `.ipk` output while its absence
selects `.tar.gz` output. -/
theorem generate_packaging_iff (env : Env) (mode : String) :
    ((Event.createIpk ∈ (generate env mode).events ∨
      Event.createTgz ∈ (generate env mode).events) ↔
      Event.beginProcessing true ∈ (generate env mode).events) ∧
    (Event.beginProcessing true ∈ (generate env mode).events →
      ((env.ipk = true → Event.createIpk ∈ (generate env mode).events ∧
          Event.createTgz ∉ (generate env mode).events) ∧
       (env.ipk = false → Event.createTgz ∈ (generate env mode).events ∧
          Event.createIpk ∉ (generate env mode).events))) := by
  obtain ⟨pre, hpre, hcase⟩ := generate_shape env mode
  rcases hcase with hg | hg | hg | hg | hg | ⟨md, extra, hex, hg⟩
  · rw [hg]
    simp
  · rw [hg]
    rcases hpre with h2 | h2 <;> subst h2 <;> simp
  · rw [hg]
    rcases hpre with h2 | h2 <;> subst h2 <;> simp
  · rw [hg]
    rcases hpre with h2 | h2 <;> subst h2 <;> simp
  · rw [hg]
    rcases hpre with h2 | h2 <;> subst h2 <;> simp
  · rcases stageProcess_cases env mode md with ⟨hc, hsp⟩ | ⟨hc, hp, hsp⟩ |
      ⟨hc, hp, hi, hsp⟩ | ⟨hc, hp, hi, hsp⟩ <;>
      rw [hg, hsp] <;>
      rcases hpre with h2 | h2 <;> rcases hex with h3 | h3 <;>
      subst h2 <;> subst h3 <;> simp [*]

/-- Witness for C7 at a concrete successful `.ipk` run. -/
theorem generate_packaging_iff_witness :
    Event.createIpk ∈ (generate envCompleteIpk "normal").events ∧
    Event.createTgz ∉ (generate envCompleteIpk "normal").events :=
  ((generate_packaging_iff envCompleteIpk "normal").2 (by decide)).1 (by decide)

/-- Claim C9: an existing output directory is deleted at startup only
after the user confirms or `--yes` is set; declining the confirmation
aborts the run with no events at all; a missing output directory is never
deleted at startup. -/
theorem generate_overwrite_guard (env : Env) (mode : String) :
    (env.outputdirExists = false →
      Event.rmtreeExisting ∉ (generate env mode).events) ∧
    (env.outputdirExists = true → env.yes = false → env.confirmOverwrite = false →
      generate env mode = ⟨[], Outcome.aborted⟩) ∧
    (Event.rmtreeExisting ∈ (generate env mode).events →
      env.outputdirExists = true ∧ (env.yes = true ∨ env.confirmOverwrite = true)) := by
  refine ⟨?_, ?_, ?_⟩
  · intro ho
    rcases generate_cases env mode with ⟨h1, _, _, hg⟩ | ⟨h1, hg⟩ | ⟨h1, _, hg⟩
    · rw [h1] at ho
      cases ho
    · rw [hg]
      exact rmtreeExisting_notin_stageConfig env mode
    · rw [h1] at ho
      cases ho
  · intro ho hy hc
    rcases generate_cases env mode with ⟨_, _, _, hg⟩ | ⟨h1, hg⟩ | ⟨h1, hyc, hg⟩
    · exact hg
    · rw [h1] at ho
      cases ho
    · rcases hyc with h | h
      · rw [hy] at h
        cases h
      · rw [hc] at h
        cases h
  · intro h
    rcases generate_cases env mode with ⟨h1, h2, h3, hg⟩ | ⟨h1, hg⟩ | ⟨h1, hyc, hg⟩
    · rw [hg] at h
      simp at h
    · rw [hg] at h
      exact absurd h (rmtreeExisting_notin_stageConfig env mode)
    · exact ⟨h1, hyc⟩

/-- Witness for C9: declining the overwrite prompt aborts untouched. -/
theorem generate_overwrite_guard_witness :
    generate envDecline "normal" = ⟨[], Outcome.aborted⟩ :=
  (generate_overwrite_guard envDecline "normal").2.1 (by decide) (by decide) (by decide)

/-- Claim C10: verbosity counts 0, 1, 2 map to `SUCCESS`, `INFO`, `DEBUG`,
every count of 3 or more is clamped to `TRACE`, and the level lookup never
yields an undefined (`None`) value. -/
theorem cli_log_level_defined :
    cli 0 = some "SUCCESS" ∧ cli 1 = some "INFO" ∧ cli 2 = some "DEBUG" ∧
    (∀ n, 3 ≤ n → cli n = some "TRACE") ∧ (∀ n, (cli n).isSome = true) := by
  have htrace : ∀ n, 3 ≤ n → cli n = some "TRACE" := by
    intro n hn
    have hv : (if n > 3 then 3 else n) = 3 := by
      split
      · rfl
      · omega
    simp [cli, hv, logLevels]
  refine ⟨by decide, by decide, by decide, htrace, ?_⟩
  intro n
  match n with
  | 0 => decide
  | 1 => decide
  | 2 => decide
  | (k + 3) =>
    rw [htrace (k + 3) (by omega)]
    rfl

/-- Witness for C10 at a concrete verbosity count above the clamp. -/
theorem cli_log_level_defined_witness : cli 5 = some "TRACE" :=
  cli_log_level_defined.2.2.2.1 5 (by omega)

/-- Unfolding: the traversal with an empty worklist returns the
accumulated closure and unresolved lists. -/
theorem walkAux_nil (catalog : Catalog) (visited unresolved : List String) :
    walkAux catalog [] visited unresolved = ⟨visited.reverse, unresolved.reverse⟩ := by
  rw [walkAux]

/-- Unfolding: an already visited head is skipped (visited-set guard). -/
theorem walkAux_cons_mem (catalog : Catalog) (n : String)
    (rest visited unresolved : List String) (hmem : n ∈ visited) :
    walkAux catalog (n :: rest) visited unresolved =
      walkAux catalog rest visited unresolved := by
  rw [walkAux]
  rw [dif_pos hmem]

/-- Unfolding: a fresh head with a catalog record is expanded. -/
theorem walkAux_cons_some (catalog : Catalog) (n : String)
    (rest visited unresolved : List String) (record : LibraryRecord)
    (hnv : n ∉ visited) (hl : lookupLib catalog n = some record) :
    walkAux catalog (n :: rest) visited unresolved =
      walkAux catalog (record.dependsOn ++ rest) (n :: visited) unresolved := by
  rw [walkAux]
  rw [dif_neg hnv]
  split
  · next record2 heq =>
      rw [hl] at heq
      injection heq with h
      subst h
      rfl
  · next heq =>
      rw [hl] at heq
      cases heq

/-- Unfolding: a fresh head absent from the catalog is recorded as
unresolved and still visited. -/
theorem walkAux_cons_none (catalog : Catalog) (n : String)
    (rest visited unresolved : List String)
    (hnv : n ∉ visited) (hl : lookupLib catalog n = none) :
    walkAux catalog (n :: rest) visited unresolved =
      walkAux catalog rest (n :: visited) (n :: unresolved) := by
  rw [walkAux]
  rw [dif_neg hnv]
  split
  · next record2 heq =>
      rw [hl] at heq
      cases heq
  · next heq => rfl

/-- Invariant of the traversal: if every visited member's dependencies lie
in the visited, pending or unresolved lists, then the final closure is
closed under `dependsOn` up to the unresolved list. -/
theorem walkAux_closed (catalog : Catalog) :
    ∀ (pending visited unresolved : List String),
    (∀ m, m ∈ visited → ∀ r, lookupLib catalog m = some r → ∀ d, d ∈ r.dependsOn →
        d ∈ visited ∨ d ∈ pending ∨ d ∈ unresolved) →
    ∀ m, m ∈ (walkAux catalog pending visited unresolved).closure →
      ∀ r, lookupLib catalog m = some r → ∀ d, d ∈ r.dependsOn →
        d ∈ (walkAux catalog pending visited unresolved).closure ∨
        d ∈ (walkAux catalog pending visited unresolved).unresolved := by
  intro pending visited unresolved
  induction pending, visited, unresolved using walkAux.induct catalog with
  | case1 visited unresolved =>
    intro hv m hm r hr d hd
    rw [walkAux_nil] at hm ⊢
    simp only [List.mem_reverse] at hm ⊢
    rcases hv m hm r hr d hd with h | h | h
    · exact Or.inl h
    · simp at h
    · exact Or.inr h
  | case2 visited unresolved n rest hmem ih =>
    intro hv m hm r hr d hd
    rw [walkAux_cons_mem catalog n rest visited unresolved hmem] at hm ⊢
    refine ih ?_ m hm r hr d hd
    intro m2 hm2 r2 hr2 d2 hd2
    rcases hv m2 hm2 r2 hr2 d2 hd2 with h | h | h
    · exact Or.inl h
    · rcases List.mem_cons.mp h with h2 | h2
      · exact Or.inl (h2 ▸ hmem)
      · exact Or.inr (Or.inl h2)
    · exact Or.inr (Or.inr h)
  | case3 visited unresolved n rest hnv record hl ih =>
    intro hv m hm r hr d hd
    rw [walkAux_cons_some catalog n rest visited unresolved record hnv hl] at hm ⊢
    refine ih ?_ m hm r hr d hd
    intro m2 hm2 r2 hr2 d2 hd2
    rcases List.mem_cons.mp hm2 with h | h
    · subst h
      rw [hl] at hr2
      injection hr2 with hrr
      subst hrr
      exact Or.inr (Or.inl (List.mem_append.mpr (Or.inl hd2)))
    · rcases hv m2 h r2 hr2 d2 hd2 with h2 | h2 | h2
      · exact Or.inl (List.mem_cons_of_mem _ h2)
      · rcases List.mem_cons.mp h2 with h3 | h3
        · exact Or.inl (h3 ▸ List.mem_cons_self _ _)
        · exact Or.inr (Or.inl (List.mem_append.mpr (Or.inr h3)))
      · exact Or.inr (Or.inr h2)
  | case4 visited unresolved n rest hnv hl ih =>
    intro hv m hm r hr d hd
    rw [walkAux_cons_none catalog n rest visited unresolved hnv hl] at hm ⊢
    refine ih ?_ m hm r hr d hd
    intro m2 hm2 r2 hr2 d2 hd2
    rcases List.mem_cons.mp hm2 with h | h
    · subst h
      rw [hl] at hr2
      simp at hr2
    · rcases hv m2 h r2 hr2 d2 hd2 with h2 | h2 | h2
      · exact Or.inl (List.mem_cons_of_mem _ h2)
      · rcases List.mem_cons.mp h2 with h3 | h3
        · exact Or.inl (h3 ▸ List.mem_cons_self _ _)
        · exact Or.inr (Or.inl h3)
      · exact Or.inr (Or.inr (List.mem_cons_of_mem _ h2))

/-- Claim C5: `walk` terminates on cyclic catalogs — on the two-element
cycle it returns exactly the closure `{A, B}` with nothing unresolved —
and for all roots and catalogs the closure is closed under `dependsOn`:
every dependency of a closure member is itself in the closure or recorded
as unresolved. (`walk` is a total Lean function, so it terminates on every
input by construction; the concrete cycle evaluates that totality.) -/
theorem walk_cycle_and_closed :
    walk ["A"] catalogAB = ⟨["A", "B"], []⟩ ∧
    ∀ (roots : List String) (catalog : Catalog) (m : String),
      m ∈ (walk roots catalog).closure →
      ∀ r, lookupLib catalog m = some r → ∀ d, d ∈ r.dependsOn →
        d ∈ (walk roots catalog).closure ∨ d ∈ (walk roots catalog).unresolved := by
  constructor
  · simp [walk, walkAux, catalogAB, lookupLib, List.find?]
  · intro roots catalog m hm r hr d hd
    exact walkAux_closed catalog roots [] [] (by simp) m hm r hr d hd

/-- Witness for C5: the dependency `B` of closure member `A` lies in the
closure of the cyclic walk. -/
theorem walk_cycle_and_closed_witness :
    "B" ∈ (walk ["A"] catalogAB).closure ∨ "B" ∈ (walk ["A"] catalogAB).unresolved := by
  have h := walk_cycle_and_closed
  refine h.2 ["A"] catalogAB "A" ?_ ⟨["B"], [], []⟩ ?_ "B" ?_
  · rw [h.1]
    simp
  · rfl
  · simp

/-- Claim C4: in mode `normal`, the entry with image version `GLIBC_2.17`
and host version `GLIBC_2.27` resolves to HOST with chosen tag
`GLIBC_2.27`, and the entry with no version tags on either side resolves
to HOST with no tag (no version evidence, same effect as mode host). -/
theorem resolve_normal_mode_cases :
    resolve ["libexample"]
        [("libexample",
          { dependsOn := [], imageVersions := ["GLIBC_2.17"],
            hostVersions := ["GLIBC_2.27"] })] =
      [{ name := "libexample", origin := Origin.HOST,
         chosenVersionTag := some "GLIBC_2.27" }] ∧
    resolve ["libempty"]
        [("libempty",
          { dependsOn := [], imageVersions := [], hostVersions := [] })] =
      [{ name := "libempty", origin := Origin.HOST, chosenVersionTag := none }] := by
  constructor
  · decide
  · decide
